import Mathlib

/-!
# Verification of the DigiWin number-guessing contract

Shallow embedding of the Clarity contract `digiwin` (embedded in
`scripts/digiwin-driver.ts`).  The contract keeps a monotone game counter, a
map of game records, two bounded guess histories and custodies STX for prize
pools.  Clarity's execution model is serial: a public function either returns
`(ok v)` and all its writes persist, or it returns `(err e)` / hits a runtime
arithmetic error and the whole transaction rolls back with zero persisted
effects.  We model that with an explicit state record, state-threading
implementations of the two public functions, and an outer wrapper that
restores the pre-call state on any error.

Clarity `uint` is 128-bit with runtime aborts on underflow and overflow; we
model values as `Nat` and insert the explicit bound checks exactly where the
source performs an arithmetic operation, in source evaluation order (Clarity
`let` bindings are evaluated eagerly, top to bottom, before the body).
-/

/-- The Clarity uint bound: arithmetic at or past `2 ^ 128` aborts. -/
def uintBound : Nat := 2 ^ 128

/-- Account identities (Clarity principals). -/
abbrev Principal := String

/-- The contract's own principal, i.e. `(as-contract tx-sender)`. -/
def contractPrincipal : Principal :=
  "SP1WEKNK5SGNTYM0J8M34FMBM7PTRJSYRWY9C1CGR.digiwin"

/-- Runtime (non-`err`) failures of the Clarity VM that abort a transaction. -/
inductive RuntimeErr where
  | underflow
  | overflow
  deriving DecidableEq, Repr

/-- How a public-function call can fail: an `(err uN)` value returned by the
function (`code n`), or a VM-level arithmetic abort (`runtime e`). -/
inductive ClarErr where
  | code (n : Nat)
  | runtime (e : RuntimeErr)
  deriving DecidableEq, Repr

/-- Result of a public-function call: `(ok v)` or a failure. -/
inductive Res (α : Type) where
  | ok (v : α)
  | err (e : ClarErr)
  deriving DecidableEq, Repr

/-- A stored game record, exactly the tuple in the `games` map. -/
structure Game where
  creator : Principal
  secretNumber : Nat
  minNumber : Nat
  maxNumber : Nat
  entryFee : Nat
  prizePool : Nat
  guessCount : Nat
  winner : Option Principal
  status : String
  createdAt : Nat
  deriving DecidableEq, Repr

/-- One element of the `game-guesses` list:
`{player: principal, guess: uint, timestamp: uint}`. -/
structure GuessAttempt where
  player : Principal
  guess : Nat
  timestamp : Nat
  deriving DecidableEq, Repr

/-- The contract's persistent state: the `total-games` data var, the three
data maps, and the STX account balances (the prize pools are custodied on the
contract's own principal). -/
structure ChainState where
  totalGames : Nat
  games : Nat → Option Game
  playerGuesses : Nat → Principal → Option (List Nat)
  gameGuesses : Nat → Option (List GuessAttempt)
  balances : Principal → Nat

/-- Per-call chain context supplied by the host: the current `block-height`
and the `get-block-info? header-hash` oracle (a 32-byte buffer per height). -/
structure ChainCtx where
  blockHeight : Nat
  headerHash : Nat → Option (List Nat)

/-- Models `map-set games k g`. -/
def ChainState.setGame (s : ChainState) (k : Nat) (g : Game) : ChainState :=
  { s with games := fun k' => if k' = k then some g else s.games k' }

/-- Models `map-set player-guesses` at key `(k, p)`. -/
def ChainState.setPlayerGuesses (s : ChainState) (k : Nat) (p : Principal)
    (l : List Nat) : ChainState :=
  { s with playerGuesses := fun k' p' =>
      if k' = k ∧ p' = p then some l else s.playerGuesses k' p' }

/-- Models `map-set game-guesses k l`. -/
def ChainState.setGameGuesses (s : ChainState) (k : Nat)
    (l : List GuessAttempt) : ChainState :=
  { s with gameGuesses := fun k' => if k' = k then some l else s.gameGuesses k' }

/-- Clarity `buff-to-uint-le`: little-endian byte list to number. -/
def buffToUintLe (bytes : List Nat) : Nat :=
  bytes.foldr (fun b acc => b + 256 * acc) 0

/-- Clarity `(slice? l left right)`: the sub-sequence `[left, right)`, or
`none` when the bounds do not fit the sequence. -/
def sliceB (l : List Nat) (left right : Nat) : Option (List Nat) :=
  if left ≤ right ∧ right ≤ l.length then some ((l.drop left).take (right - left))
  else none

/-- Clarity `(as-max-len? l n)`: `some l` when `l` fits in `n`, else `none`. -/
def asMaxLen {α : Type} (l : List α) (n : Nat) : Option (List α) :=
  if l.length ≤ n then some l else none

/-- Clarity `(stx-transfer? amount sender recipient)`.  Error codes of the
host: `u3` non-positive amount, `u2` sender is recipient, `u1` insufficient
balance.  (The `u4` sender-is-not-tx-sender case cannot arise here: both call
sites pass the ambient `tx-sender`.)  On success the state with moved funds. -/
def stxTransfer (amount : Nat) (sender recipient : Principal)
    (s : ChainState) : Res ChainState :=
  if amount = 0 then .err (.code 3)
  else if sender = recipient then .err (.code 2)
  else if s.balances sender < amount then .err (.code 1)
  else .ok { s with balances := fun p =>
      if p = recipient then s.balances p + amount
      else if p = sender then s.balances p - amount
      else s.balances p }

/-- Implements `create-game (min-number uint) (max-number uint) (entry-fee uint)`.

Mirrors the source's `let` bindings in order: `game-id`, `block-hash`
(`get-block-info? header-hash (- block-height u1)`, where the subtraction
aborts at height 0 and a missing hash is `(err u109)`), `range`
(`(+ (- max-number min-number) u1)`, whose subtraction aborts whenever
`max-number < min-number` — this happens BEFORE the body's
`(asserts! (<= min-number max-number) ERR_INVALID_PARAMS)` is reached),
`hash-bytes` (`slice?`, `(err u111)`), `hash-bytes-16` (`as-max-len?`,
`(err u112)`), `random-seed` (`xor` with `block-height`) and `secret`.
The body then asserts the range, stores the record with status "active",
and bumps `total-games`.  All error paths leave the state untouched (the
writes are the last steps). -/
def createGame (ctx : ChainCtx) (caller : Principal)
    (minNumber maxNumber entryFee : Nat) (s : ChainState) :
    Res Nat × ChainState :=
  let gameId := s.totalGames
  if ctx.blockHeight < 1 then (.err (.runtime .underflow), s)
  else
    match ctx.headerHash (ctx.blockHeight - 1) with
    | none => (.err (.code 109), s)
    | some blockHash =>
      if maxNumber < minNumber then (.err (.runtime .underflow), s)
      else if uintBound ≤ maxNumber - minNumber + 1 then
        (.err (.runtime .overflow), s)
      else
        let range := maxNumber - minNumber + 1
        match sliceB blockHash 0 16 with
        | none => (.err (.code 111), s)
        | some hashBytes =>
          match asMaxLen hashBytes 16 with
          | none => (.err (.code 112), s)
          | some hashBytes16 =>
            let randomSeed := Nat.xor (buffToUintLe hashBytes16) ctx.blockHeight
            if uintBound ≤ randomSeed % range + minNumber then
              (.err (.runtime .overflow), s)
            else
              let secret := randomSeed % range + minNumber
              if minNumber ≤ maxNumber then
                if uintBound ≤ gameId + 1 then (.err (.runtime .overflow), s)
                else
                  (.ok gameId,
                    { (s.setGame gameId
                        { creator := caller
                          secretNumber := secret
                          minNumber := minNumber
                          maxNumber := maxNumber
                          entryFee := entryFee
                          prizePool := 0
                          guessCount := 0
                          winner := none
                          status := "active"
                          createdAt := ctx.blockHeight }) with
                      totalGames := gameId + 1 })
              else (.err (.code 105), s)

/-- Steps of `guess` after the entry fee has been paid: append to
`player-guesses` (capacity 10, `(err u108)` past it), append to
`game-guesses` (capacity 1000, same error), then compare against the secret.
On a match: `final-pool = prize-pool + entry-fee`, payout from the contract
to the caller via `stx-transfer?`, then `merge` the record with
`{prize-pool: u0, guess-count: +1, winner: (some caller), status: "won"}`.
Otherwise `merge` with the grown pool and count.  The two lists are the ones
read at the top of the source `let` (before the fee transfer). -/
def recordAndSettle (ctx : ChainCtx) (caller : Principal)
    (gameId number : Nat) (game : Game) (playerGuessList : List Nat)
    (currentGuesses : List GuessAttempt) (s : ChainState) :
    Res Bool × ChainState :=
  match asMaxLen (playerGuessList ++ [number]) 10 with
  | none => (.err (.code 108), s)
  | some newPlayerList =>
    let s2 := s.setPlayerGuesses gameId caller newPlayerList
    match asMaxLen
        (currentGuesses ++ [{ player := caller, guess := number,
                              timestamp := ctx.blockHeight }]) 1000 with
    | none => (.err (.code 108), s2)
    | some newGameList =>
      let s3 := s2.setGameGuesses gameId newGameList
      if number = game.secretNumber then
        if uintBound ≤ game.prizePool + game.entryFee then
          (.err (.runtime .overflow), s3)
        else
          match stxTransfer (game.prizePool + game.entryFee)
              contractPrincipal caller s3 with
          | .err e => (.err e, s3)
          | .ok s4 =>
            if uintBound ≤ game.guessCount + 1 then
              (.err (.runtime .overflow), s4)
            else
              (.ok true,
                s4.setGame gameId
                  { game with prizePool := 0,
                              guessCount := game.guessCount + 1,
                              winner := some caller,
                              status := "won" })
      else
        if uintBound ≤ game.prizePool + game.entryFee then
          (.err (.runtime .overflow), s3)
        else if uintBound ≤ game.guessCount + 1 then
          (.err (.runtime .overflow), s3)
        else
          (.ok false,
            s3.setGame gameId
              { game with prizePool := game.prizePool + game.entryFee,
                          guessCount := game.guessCount + 1 })

/-- The body of `guess (game-id uint) (number uint)` before rollback:
look the game up (`(err u101)` when absent), read the two history lists
(`default-to (list)`), assert `status` is "active" (`(err u102)`), assert the
number is inside `[min-number, max-number]` (`(err u103)`), pay the entry fee
into contract custody when it is positive, then record and settle.  Error
results may carry a dirty state; the public wrapper discards it. -/
def guessInner (ctx : ChainCtx) (caller : Principal) (gameId number : Nat)
    (s : ChainState) : Res Bool × ChainState :=
  match s.games gameId with
  | none => (.err (.code 101), s)
  | some game =>
    let currentGuesses := (s.gameGuesses gameId).getD []
    let playerGuessList := (s.playerGuesses gameId caller).getD []
    if game.status = "active" then
      if game.minNumber ≤ number ∧ number ≤ game.maxNumber then
        match (if 0 < game.entryFee then
                stxTransfer game.entryFee caller contractPrincipal s
              else .ok s) with
        | .err e => (.err e, s)
        | .ok s1 =>
          recordAndSettle ctx caller gameId number game playerGuessList
            currentGuesses s1
      else (.err (.code 103), s)
    else (.err (.code 102), s)

/-- The public `guess` call: Clarity rolls back every write of a public
function that does not return `(ok ...)`, so on error the pre-call state is
restored verbatim. -/
def guess (ctx : ChainCtx) (caller : Principal) (gameId number : Nat)
    (s : ChainState) : Res Bool × ChainState :=
  match guessInner ctx caller gameId number s with
  | (.ok v, s') => (.ok v, s')
  | (.err e, _) => (.err e, s)

/-- Implements `get-game-info`: the raw record lookup. -/
def getGameInfo (s : ChainState) (gameId : Nat) : Option Game :=
  s.games gameId

/-- Implements `get-game-winner`: `(get winner (map-get? games game-id))` — Clarity's
`get` on an optional tuple wraps the field in `some`, so a stored game yields
`some game.winner` (that is `some none` while undecided) and an unknown id
yields `none`. -/
def getGameWinner (s : ChainState) (gameId : Nat) : Option (Option Principal) :=
  (s.games gameId).map (fun g => g.winner)

/-- Implements `get-guess-count`: `some count` for a stored game, `none` otherwise. -/
def getGuessCount (s : ChainState) (gameId : Nat) : Option Nat :=
  (s.games gameId).map (fun g => g.guessCount)

/-- Implements `get-prize-pool`: `some pool` for a stored game, `none` otherwise. -/
def getPrizePool (s : ChainState) (gameId : Nat) : Option Nat :=
  (s.games gameId).map (fun g => g.prizePool)

/-- Implements `get-total-games`: `(ok (var-get total-games))`. -/
def getTotalGames (s : ChainState) : Res Nat :=
  .ok s.totalGames

/-- Result type of `is-game-active`.  Its error branch is
`(err ERR_GAME_NOT_FOUND)` where the constant is itself the response
`(err u101)`, so the error payload is a nested response value. -/
inductive ActiveRes where
  | ok (b : Bool)
  | err (payload : Res Empty)
  deriving DecidableEq

/-- Implements `is-game-active`: an explicit found/not-found result, unlike the three
field accessors above. -/
def isGameActive (s : ChainState) (gameId : Nat) : ActiveRes :=
  match s.games gameId with
  | some game => .ok (game.status == "active")
  | none => .err (.err (.code 101))

/-- Implements `get-player-guesses`: the recorded list, `(list)` when absent. -/
def getPlayerGuesses (s : ChainState) (gameId : Nat) (player : Principal) :
    List Nat :=
  (s.playerGuesses gameId player).getD []

/-- A transaction submitted to the contract: either of the two public calls,
with its chain context. -/
inductive Op where
  | create (ctx : ChainCtx) (caller : Principal)
      (minNumber maxNumber entryFee : Nat)
  | play (ctx : ChainCtx) (caller : Principal) (gameId number : Nat)

/-- State reached after one transaction (its result value discarded). -/
def applyOp (op : Op) (s : ChainState) : ChainState :=
  match op with
  | .create ctx c mn mx fee => (createGame ctx c mn mx fee s).2
  | .play ctx c gid n => (guess ctx c gid n s).2

/-- State reached after a serial sequence of transactions. -/
def runOps (ops : List Op) (s : ChainState) : ChainState :=
  match ops with
  | [] => s
  | op :: rest => runOps rest (applyOp op s)

/-- Run a sequence of transactions collecting, in order, the game id returned
by each successful `create-game`. -/
def runTrace (ops : List Op) (s : ChainState) : List Nat × ChainState :=
  match ops with
  | [] => ([], s)
  | .create ctx c mn mx fee :: rest =>
    match createGame ctx c mn mx fee s with
    | (.ok gid, s') =>
      let r := runTrace rest s'
      (gid :: r.1, r.2)
    | (.err _, s') => runTrace rest s'
  | .play ctx c gid n :: rest => runTrace rest (guess ctx c gid n s).2

/-- Genesis contract state over given initial account balances: counter 0,
all maps empty. -/
def initState (bal : Principal → Nat) : ChainState :=
  { totalGames := 0
    games := fun _ => none
    playerGuesses := fun _ _ => none
    gameGuesses := fun _ => none
    balances := bal }

/-! ## Concrete fixtures used by witnesses and counterexamples -/

/-- A benign chain context: height 1, all-zero 32-byte header hashes. -/
def ctxA : ChainCtx :=
  { blockHeight := 1, headerHash := fun _ => some (List.replicate 32 0) }

/-- Initial balances: the player "bob" holds 1000 microSTX. -/
def balA : Principal → Nat := fun p => if p = "bob" then 1000 else 0

/-- An active game with fee 100 and an empty pool, secret 5 in `[1, 10]`. -/
def gA : Game :=
  { creator := "alice", secretNumber := 5, minNumber := 1, maxNumber := 10,
    entryFee := 100, prizePool := 0, guessCount := 0, winner := none,
    status := "active", createdAt := 1 }

/-- A one-game state holding `gA` at id 0. -/
def sA : ChainState :=
  { totalGames := 1, games := fun k => if k = 0 then some gA else none,
    playerGuesses := fun _ _ => none, gameGuesses := fun _ => none,
    balances := balA }

/-- The game `gA` with a zero entry fee (and still an empty pool). -/
def gZ : Game := { gA with entryFee := 0 }

/-- A one-game state holding the zero-fee, zero-pool game `gZ`. -/
def sZ : ChainState := { sA with games := fun k => if k = 0 then some gZ else none }

/-- The state `sA` where "bob" has already recorded 10 guesses on game 0. -/
def sT : ChainState :=
  { sA with playerGuesses := fun k p =>
      if k = 0 ∧ p = "bob" then some [1, 2, 3, 4, 5, 6, 7, 8, 9, 10] else none }

/-- The game `gA` already won by "bob". -/
def gW : Game := { gA with status := "won", winner := some "bob" }

/-- A one-game state holding the finished game `gW`. -/
def sW : ChainState := { sA with games := fun k => if k = 0 then some gW else none }

/-- The invariant of claim C6 on a single record. -/
def GameInv (g : Game) : Prop :=
  g.minNumber ≤ g.secretNumber ∧ g.secretNumber ≤ g.maxNumber

/-- Every stored record satisfies `GameInv`. -/
def StateInv (s : ChainState) : Prop :=
  ∀ gid g, s.games gid = some g → GameInv g

/-- The record stored by `create-game 5 5 0` from `initState balA` under
`ctxA` (range width 1 forces secret 5). -/
def gNew : Game :=
  { creator := "alice", secretNumber := 5, minNumber := 5, maxNumber := 5,
    entryFee := 0, prizePool := 0, guessCount := 0, winner := none,
    status := "active", createdAt := 1 }

/-! ## Helper lemmas -/

theorem setGame_games_self (s : ChainState) (k : Nat) (g : Game) :
    (s.setGame k g).games k = some g := by
  simp [ChainState.setGame]

theorem setGame_games_other (s : ChainState) (k k' : Nat) (g : Game)
    (h : k' ≠ k) : (s.setGame k g).games k' = s.games k' := by
  simp [ChainState.setGame, h]

theorem setPlayerGuesses_games (s : ChainState) (k : Nat) (p : Principal)
    (l : List Nat) : (s.setPlayerGuesses k p l).games = s.games := rfl

theorem setGameGuesses_games (s : ChainState) (k : Nat)
    (l : List GuessAttempt) : (s.setGameGuesses k l).games = s.games := rfl

theorem setGame_totalGames (s : ChainState) (k : Nat) (g : Game) :
    (s.setGame k g).totalGames = s.totalGames := rfl

theorem setPlayerGuesses_totalGames (s : ChainState) (k : Nat) (p : Principal)
    (l : List Nat) : (s.setPlayerGuesses k p l).totalGames = s.totalGames := rfl

theorem setGameGuesses_totalGames (s : ChainState) (k : Nat)
    (l : List GuessAttempt) : (s.setGameGuesses k l).totalGames = s.totalGames := rfl

theorem stxTransfer_ok_games {amount : Nat} {p q : Principal}
    {s s' : ChainState} (h : stxTransfer amount p q s = .ok s') :
    s'.games = s.games := by
  unfold stxTransfer at h
  split at h
  · cases h
  · split at h
    · cases h
    · split at h
      · cases h
      · cases h; rfl

theorem stxTransfer_ok_totalGames {amount : Nat} {p q : Principal}
    {s s' : ChainState} (h : stxTransfer amount p q s = .ok s') :
    s'.totalGames = s.totalGames := by
  unfold stxTransfer at h
  split at h
  · cases h
  · split at h
    · cases h
    · split at h
      · cases h
      · cases h; rfl

theorem stxTransfer_succeeds (amount : Nat) (p q : Principal) (s : ChainState)
    (h0 : amount ≠ 0) (hpq : p ≠ q) (hb : amount ≤ s.balances p) :
    stxTransfer amount p q s =
      .ok { s with balances := fun x =>
              if x = q then s.balances x + amount
              else if x = p then s.balances x - amount
              else s.balances x } := by
  unfold stxTransfer
  rw [if_neg h0, if_neg hpq, if_neg (by omega)]

/-! ## Claim theorems -/

/-- C5: for every stored game whose status is not "active", any `guess` call
on it fails with `GameAlreadyWon` `(err u102)` and returns the pre-call state
verbatim, so the game record, both guess histories and the custodied funds
are unchanged. -/
theorem guess_on_finished_game_fails (ctx : ChainCtx) (caller : Principal)
    (gameId number : Nat) (s : ChainState) (g : Game)
    (hg : s.games gameId = some g) (hs : g.status ≠ "active") :
    guess ctx caller gameId number s = (.err (.code 102), s) := by
  unfold guess guessInner
  rw [hg]
  simp [hs]

/-- Witness for C5: on the finished game `gW` a further guess by "carol"
fails with code 102 and leaves the state untouched. -/
theorem guess_on_finished_game_fails_witness :
    sW.games 0 = some gW ∧ gW.status ≠ "active" ∧
    guess ctxA "carol" 0 5 sW = (.err (.code 102), sW) :=
  ⟨by decide, by decide,
    guess_on_finished_game_fails ctxA "carol" 0 5 sW gW (by decide) (by decide)⟩

/-- C2 (code bug): with `min-number > max-number`, `create-game` does NOT
fail with `InvalidParams` `(err u105)` as the spec and the repository's own
tests demand.  The `let` binding `range = (+ (- max-number min-number) u1)`
is evaluated before the body's `asserts!`, and the unsigned subtraction
aborts the transaction with a runtime underflow.  First conjunct: at the
failing input of the repository's test, `create-game(100, 10, fee)` aborts
with the underflow and leaves the state (so the record count) unchanged.
Second conjunct: the `(err u105)` branch is unreachable for every input —
the contract can never return `InvalidParams`. -/
theorem create_min_gt_max_aborts :
    (∀ (caller : Principal) (fee : Nat) (s : ChainState),
      createGame ctxA caller 100 10 fee s = (.err (.runtime .underflow), s)) ∧
    (∀ (ctx : ChainCtx) (caller : Principal) (mn mx fee : Nat) (s : ChainState),
      (createGame ctx caller mn mx fee s).1 ≠ .err (.code 105)) := by
  constructor
  · intro caller fee s
    rfl
  · intro ctx caller mn mx fee s
    unfold createGame
    dsimp only
    split
    · simp
    · split
      · simp
      · split
        · simp
        · split
          · simp
          · split
            · simp
            · split
              · simp
              · split
                · simp
                · split
                  · split
                    · simp
                    · simp
                  · omega

/-- C9 (amended): for a gameId with no stored game the three field accessors
return `none` while `is-game-active` returns the explicit not-found error
`(err ERR_GAME_NOT_FOUND)`, whose payload is the constant response
`(err u101)` itself.  Being read-only projections of the state, none of them
mutates anything.  Unlike the claim's parenthetical, the `none` for a missing
game IS distinguishable from the answer for a stored game with an empty
field, which comes back wrapped in `some` (see the counterexample). -/
theorem missing_game_readonly_results (s : ChainState) (gameId : Nat)
    (h : s.games gameId = none) :
    getGameWinner s gameId = none ∧ getGuessCount s gameId = none ∧
    getPrizePool s gameId = none ∧
    isGameActive s gameId = .err (.err (.code 101)) := by
  simp [getGameWinner, getGuessCount, getPrizePool, isGameActive, h]

/-- Witness for C9: in the one-game state `sA`, id 7 is unknown. -/
theorem missing_game_readonly_results_witness :
    sA.games 7 = none ∧
    (getGameWinner sA 7 = none ∧ getGuessCount sA 7 = none ∧
     getPrizePool sA 7 = none ∧
     isGameActive sA 7 = .err (.err (.code 101))) :=
  ⟨by decide, missing_game_readonly_results sA 7 (by decide)⟩

/-- Counterexample for C9 as stated: the absent value returned for an
unknown gameId is NOT indistinguishable from a known-but-empty field.  Game
0 of `sA` is stored with `winner = none` and `get-game-winner` answers
`(some none)` for it, while the unknown id 1 yields `none`; the two answers
differ. -/
theorem missing_game_readonly_results_cex :
    sA.games 1 = none ∧ sA.games 0 = some gA ∧ gA.winner = none ∧
    getGameWinner sA 1 = none ∧ getGameWinner sA 0 = some none ∧
    getGameWinner sA 1 ≠ getGameWinner sA 0 := by
  decide

/-- C10: on an active game with `entry-fee = 0` and `prize-pool = 0`, a
guess that hits the secret number cannot win.  The fee step is skipped
(`entry-fee > 0` fails), both history appends fit, and the payout then calls
`stx-transfer?` with `final-pool = 0`, which the host rejects with its
non-positive-amount error `u3`; `try!` surfaces it, the call returns
`(err u3)` and every write is rolled back, so the pre-call state is returned
verbatim. -/
theorem zero_fee_zero_pool_unwinnable (ctx : ChainCtx) (caller : Principal)
    (gameId number : Nat) (s : ChainState) (g : Game)
    (hg : s.games gameId = some g) (hst : g.status = "active")
    (hfee : g.entryFee = 0) (hpool : g.prizePool = 0)
    (hnum : number = g.secretNumber)
    (hlo : g.minNumber ≤ number) (hhi : number ≤ g.maxNumber)
    (hpl : ((s.playerGuesses gameId caller).getD []).length < 10)
    (hgl : ((s.gameGuesses gameId).getD []).length < 1000) :
    guess ctx caller gameId number s = (.err (.code 3), s) := by
  unfold guess guessInner
  rw [hg]
  dsimp only
  rw [if_pos hst, if_pos ⟨hlo, hhi⟩, hfee]
  simp only [Nat.lt_irrefl, if_false]
  unfold recordAndSettle
  rw [show asMaxLen (((s.playerGuesses gameId caller).getD []) ++ [number]) 10 =
        some (((s.playerGuesses gameId caller).getD []) ++ [number]) by
      unfold asMaxLen
      rw [if_pos (by simp; omega)]]
  dsimp only
  rw [show asMaxLen (((s.gameGuesses gameId).getD []) ++
        [{ player := caller, guess := number, timestamp := ctx.blockHeight }]) 1000 =
        some (((s.gameGuesses gameId).getD []) ++
        [{ player := caller, guess := number, timestamp := ctx.blockHeight }]) by
      unfold asMaxLen
      rw [if_pos (by simp; omega)]]
  dsimp only
  rw [if_pos hnum, hpool, hfee]
  norm_num [stxTransfer, uintBound]

/-- Witness for C10: "bob" hits the secret 5 of the zero-fee, zero-pool game
`gZ` and the call still fails with the transfer error `u3`. -/
theorem zero_fee_zero_pool_unwinnable_witness :
    sZ.games 0 = some gZ ∧ gZ.status = "active" ∧ gZ.entryFee = 0 ∧
    gZ.prizePool = 0 ∧ (5 : Nat) = gZ.secretNumber ∧
    guess ctxA "bob" 0 5 sZ = (.err (.code 3), sZ) :=
  ⟨by decide, by decide, by decide, by decide, by decide,
    zero_fee_zero_pool_unwinnable ctxA "bob" 0 5 sZ gZ (by decide) (by decide)
      (by decide) (by decide) (by decide) (by decide) (by decide) (by decide)
      (by decide)⟩

/-- C3: when a player already has 10 recorded guesses on a game, a further
guess on that game (active, in-range) fails with `TooManyGuesses`
`(err u108)`: the `as-max-len?` on the grown player history returns `none`
and `unwrap!` surfaces the error.  The public call then rolls back, so the
pre-call state comes back verbatim — the 10 stored entries, the game log and
the caller's balance (the entry-fee transfer made just before the capacity
check included) are all unchanged.  The fee-step hypothesis only demands
that the transfer itself could complete. -/
theorem eleventh_guess_rejected (ctx : ChainCtx) (caller : Principal)
    (gameId number : Nat) (s : ChainState) (g : Game)
    (hg : s.games gameId = some g) (hst : g.status = "active")
    (hlo : g.minNumber ≤ number) (hhi : number ≤ g.maxNumber)
    (hfull : ((s.playerGuesses gameId caller).getD []).length = 10)
    (hfee : 0 < g.entryFee →
      caller ≠ contractPrincipal ∧ g.entryFee ≤ s.balances caller) :
    guess ctx caller gameId number s = (.err (.code 108), s) := by
  unfold guess guessInner
  rw [hg]
  dsimp only
  rw [if_pos hst, if_pos ⟨hlo, hhi⟩]
  have hcap : asMaxLen (((s.playerGuesses gameId caller).getD []) ++ [number]) 10 =
      (none : Option (List Nat)) := by
    unfold asMaxLen
    rw [if_neg (by simp; omega)]
  by_cases hf : 0 < g.entryFee
  · obtain ⟨hne, hbal⟩ := hfee hf
    rw [if_pos hf, stxTransfer_succeeds g.entryFee caller contractPrincipal s
      (by omega) hne hbal]
    dsimp only
    unfold recordAndSettle
    rw [hcap]
  · rw [if_neg hf]
    dsimp only
    unfold recordAndSettle
    rw [hcap]

/-- Witness for C3: in `sT` the player "bob" already has the 10 guesses
`[1..10]` recorded on game 0; the in-range guess 7 fails with code 108 and
the state (including the paid-then-rolled-back fee) is returned verbatim. -/
theorem eleventh_guess_rejected_witness :
    sT.games 0 = some gA ∧ gA.status = "active" ∧
    (sT.playerGuesses 0 "bob").getD [] = [1, 2, 3, 4, 5, 6, 7, 8, 9, 10] ∧
    guess ctxA "bob" 0 7 sT = (.err (.code 108), sT) :=
  ⟨by decide, by decide, by decide,
    eleventh_guess_rejected ctxA "bob" 0 7 sT gA (by decide) (by decide)
      (by decide) (by decide) (by decide) (by decide)⟩

/-- C4 (amended): a non-winning in-range guess on an active game returns
Continue `(ok false)`, grows the pool by the entry fee and the count by one
and touches no other field of the record — provided the success
preconditions of the operation hold: the caller can fund the entry fee,
both history appends fit their capacities, and neither 128-bit addition
overflows. -/
theorem losing_guess_grows_pool (ctx : ChainCtx) (caller : Principal)
    (gameId number : Nat) (s : ChainState) (g : Game)
    (hg : s.games gameId = some g) (hst : g.status = "active")
    (hlo : g.minNumber ≤ number) (hhi : number ≤ g.maxNumber)
    (hne : number ≠ g.secretNumber)
    (hpl : ((s.playerGuesses gameId caller).getD []).length < 10)
    (hgl : ((s.gameGuesses gameId).getD []).length < 1000)
    (hfee : 0 < g.entryFee →
      caller ≠ contractPrincipal ∧ g.entryFee ≤ s.balances caller)
    (hov : g.prizePool + g.entryFee < uintBound)
    (hcnt : g.guessCount + 1 < uintBound) :
    (guess ctx caller gameId number s).1 = .ok false ∧
    ((guess ctx caller gameId number s).2).games gameId =
      some { g with prizePool := g.prizePool + g.entryFee,
                    guessCount := g.guessCount + 1 } := by
  have hbody : ∀ s1 : ChainState,
      recordAndSettle ctx caller gameId number g
        ((s.playerGuesses gameId caller).getD [])
        ((s.gameGuesses gameId).getD []) s1 =
      (.ok false,
        ((s1.setPlayerGuesses gameId caller
            (((s.playerGuesses gameId caller).getD []) ++ [number])).setGameGuesses
          gameId (((s.gameGuesses gameId).getD []) ++
            [{ player := caller, guess := number, timestamp := ctx.blockHeight }])).setGame
          gameId { g with prizePool := g.prizePool + g.entryFee,
                          guessCount := g.guessCount + 1 }) := by
    intro s1
    unfold recordAndSettle
    rw [show asMaxLen (((s.playerGuesses gameId caller).getD []) ++ [number]) 10 =
          some (((s.playerGuesses gameId caller).getD []) ++ [number]) by
        unfold asMaxLen
        rw [if_pos (by simp; omega)]]
    dsimp only
    rw [show asMaxLen (((s.gameGuesses gameId).getD []) ++
          [{ player := caller, guess := number, timestamp := ctx.blockHeight }]) 1000 =
          some (((s.gameGuesses gameId).getD []) ++
          [{ player := caller, guess := number, timestamp := ctx.blockHeight }]) by
        unfold asMaxLen
        rw [if_pos (by simp; omega)]]
    dsimp only
    rw [if_neg hne, if_neg (by omega), if_neg (by omega)]
  unfold guess guessInner
  rw [hg]
  dsimp only
  rw [if_pos hst, if_pos ⟨hlo, hhi⟩]
  by_cases hf : 0 < g.entryFee
  · obtain ⟨hcp, hbal⟩ := hfee hf
    rw [if_pos hf, stxTransfer_succeeds g.entryFee caller contractPrincipal s
      (by omega) hcp hbal]
    dsimp only
    rw [hbody]
    exact ⟨rfl, setGame_games_self _ _ _⟩
  · rw [if_neg hf]
    dsimp only
    rw [hbody]
    exact ⟨rfl, setGame_games_self _ _ _⟩

/-- Witness for C4: "bob" guesses 7 (secret is 5) on game 0 of `sA`; the
call returns `(ok false)` and the record keeps everything except the pool
(now 100) and the count (now 1). -/
theorem losing_guess_grows_pool_witness :
    sA.games 0 = some gA ∧ gA.status = "active" ∧ (7 : Nat) ≠ gA.secretNumber ∧
    ((guess ctxA "bob" 0 7 sA).1 = .ok false ∧
     ((guess ctxA "bob" 0 7 sA).2).games 0 =
       some { gA with prizePool := gA.prizePool + gA.entryFee,
                      guessCount := gA.guessCount + 1 }) :=
  ⟨by decide, by decide, by decide,
    losing_guess_grows_pool ctxA "bob" 0 7 sA gA (by decide) (by decide)
      (by decide) (by decide) (by decide) (by decide) (by decide) (by decide)
      (by decide) (by decide)⟩

/-- Counterexample for C4 as stated: the claim quantifies over every active
game and every in-range non-matching guess, but a player whose history is
already at the 10-entry capacity gets `(err u108)` instead of Continue, and
the pool does not grow. -/
theorem losing_guess_grows_pool_cex :
    sT.games 0 = some gA ∧ gA.status = "active" ∧ (7 : Nat) ≠ gA.secretNumber ∧
    gA.minNumber ≤ 7 ∧ 7 ≤ gA.maxNumber ∧
    (guess ctxA "bob" 0 7 sT).1 = .err (.code 108) ∧
    (guess ctxA "bob" 0 7 sT).1 ≠ .ok false ∧
    getPrizePool ((guess ctxA "bob" 0 7 sT).2) 0 = some 0 := by
  decide

/-- C1 (amended): an in-range guess hitting the secret of an active game
returns Won `(ok true)` and, within the same call, transfers
`prize-pool + entry-fee` from contract custody to the caller (a net gain of
the previous pool, since the caller just paid the fee in), zeroes the pool,
sets the winner, marks the game "won" and bumps the count — provided the
payout amount is positive, the caller can fund the fee, the contract
custodies at least the pool, both histories are below capacity and no
128-bit addition overflows. -/
theorem winning_guess_settles (ctx : ChainCtx) (caller : Principal)
    (gameId number : Nat) (s : ChainState) (g : Game)
    (hg : s.games gameId = some g) (hst : g.status = "active")
    (hnum : number = g.secretNumber)
    (hlo : g.minNumber ≤ number) (hhi : number ≤ g.maxNumber)
    (hpl : ((s.playerGuesses gameId caller).getD []).length < 10)
    (hgl : ((s.gameGuesses gameId).getD []).length < 1000)
    (hfee : 0 < g.entryFee → g.entryFee ≤ s.balances caller)
    (hcal : caller ≠ contractPrincipal)
    (hpos : 0 < g.prizePool + g.entryFee)
    (hcust : g.prizePool ≤ s.balances contractPrincipal)
    (hov : g.prizePool + g.entryFee < uintBound)
    (hcnt : g.guessCount + 1 < uintBound) :
    (guess ctx caller gameId number s).1 = .ok true ∧
    ((guess ctx caller gameId number s).2).games gameId =
      some { g with prizePool := 0, guessCount := g.guessCount + 1,
                    winner := some caller, status := "won" } ∧
    ((guess ctx caller gameId number s).2).balances caller =
      s.balances caller + g.prizePool := by
  have hpl2 : asMaxLen (((s.playerGuesses gameId caller).getD []) ++ [number]) 10 =
      some (((s.playerGuesses gameId caller).getD []) ++ [number]) := by
    unfold asMaxLen
    rw [if_pos (by simp; omega)]
  have hgl2 : asMaxLen (((s.gameGuesses gameId).getD []) ++
        [{ player := caller, guess := number, timestamp := ctx.blockHeight }]) 1000 =
      some (((s.gameGuesses gameId).getD []) ++
        [{ player := caller, guess := number, timestamp := ctx.blockHeight }]) := by
    unfold asMaxLen
    rw [if_pos (by simp; omega)]
  unfold guess guessInner
  rw [hg]
  dsimp only
  rw [if_pos hst, if_pos ⟨hlo, hhi⟩]
  by_cases hf : 0 < g.entryFee
  · rw [if_pos hf, stxTransfer_succeeds g.entryFee caller contractPrincipal s
      (by omega) hcal (hfee hf)]
    dsimp only
    unfold recordAndSettle
    rw [hpl2]
    dsimp only
    rw [hgl2]
    dsimp only
    rw [if_pos hnum, if_neg (by omega),
      stxTransfer_succeeds (g.prizePool + g.entryFee) contractPrincipal caller _
        (by omega) (fun h => hcal h.symm)
        (by
          simp only [ChainState.setPlayerGuesses, ChainState.setGameGuesses]
          simp [hcal]
          omega)]
    dsimp only
    rw [if_neg (by omega)]
    refine ⟨rfl, setGame_games_self _ _ _, ?_⟩
    simp only [ChainState.setGame, ChainState.setPlayerGuesses,
      ChainState.setGameGuesses]
    simp [hcal]
    have := hfee hf
    omega
  · rw [if_neg hf]
    dsimp only
    unfold recordAndSettle
    rw [hpl2]
    dsimp only
    rw [hgl2]
    dsimp only
    rw [if_pos hnum, if_neg (by omega),
      stxTransfer_succeeds (g.prizePool + g.entryFee) contractPrincipal caller _
        (by omega) (fun h => hcal h.symm)
        (by
          simp only [ChainState.setPlayerGuesses, ChainState.setGameGuesses]
          omega)]
    dsimp only
    rw [if_neg (by omega)]
    refine ⟨rfl, setGame_games_self _ _ _, ?_⟩
    simp only [ChainState.setGame, ChainState.setPlayerGuesses,
      ChainState.setGameGuesses]
    simp [hcal]
    omega

/-- Witness for C1: "bob" hits the secret 5 of game 0 in `sA` (fee 100,
pool 0): the call returns `(ok true)`, the record becomes won with winner
"bob", pool 0 and count 1, and "bob" nets the previous pool (0). -/
theorem winning_guess_settles_witness :
    sA.games 0 = some gA ∧ gA.status = "active" ∧ (5 : Nat) = gA.secretNumber ∧
    0 < gA.prizePool + gA.entryFee ∧
    ((guess ctxA "bob" 0 5 sA).1 = .ok true ∧
     ((guess ctxA "bob" 0 5 sA).2).games 0 =
       some { gA with prizePool := 0, guessCount := gA.guessCount + 1,
                      winner := some "bob", status := "won" } ∧
     ((guess ctxA "bob" 0 5 sA).2).balances "bob" =
       sA.balances "bob" + gA.prizePool) :=
  ⟨by decide, by decide, by decide, by decide,
    winning_guess_settles ctxA "bob" 0 5 sA gA (by decide) (by decide)
      (by decide) (by decide) (by decide) (by decide) (by decide) (by decide)
      (by decide) (by decide) (by decide) (by decide) (by decide)⟩

/-- Counterexample for C1 as stated: on the zero-fee, zero-pool active game
`gZ` the guess matching the secret (5, in range) does not return Won — the
zero-amount payout fails and the call returns the transfer error `(err u3)`
with the state rolled back. -/
theorem winning_guess_settles_cex :
    sZ.games 0 = some gZ ∧ gZ.status = "active" ∧ (5 : Nat) = gZ.secretNumber ∧
    gZ.minNumber ≤ 5 ∧ 5 ≤ gZ.maxNumber ∧
    (guess ctxA "bob" 0 5 sZ).1 ≠ .ok true ∧
    (guess ctxA "bob" 0 5 sZ).1 = .err (.code 3) := by
  decide

/-- C8: every successfully created game stores
`secret = min-number + (seed mod range)` with `range = max-number -
min-number + 1` and `seed = (buff-to-uint-le (first 16 bytes of the
previous block's header hash)) xor block-height`.  The secret is thus a
deterministic function of the chain context and the range arguments alone:
any two successful creations under the same context and range store the
same secret. -/
theorem secret_derivation (ctx : ChainCtx) (caller : Principal)
    (mn mx fee : Nat) (s s' : ChainState) (gid : Nat) (hsh : List Nat)
    (hok : createGame ctx caller mn mx fee s = (.ok gid, s'))
    (hh : ctx.headerHash (ctx.blockHeight - 1) = some hsh) :
    ∃ g, s'.games gid = some g ∧
      g.secretNumber =
        mn + Nat.xor (buffToUintLe (hsh.take 16)) ctx.blockHeight % (mx - mn + 1) := by
  unfold createGame at hok
  dsimp only at hok
  split at hok
  · simp at hok
  · split at hok
    · simp at hok
    · rename_i blockHash heqh
      split at hok
      · simp at hok
      · split at hok
        · simp at hok
        · split at hok
          · simp at hok
          · rename_i hbytes heqs
            split at hok
            · simp at hok
            · rename_i hbytes16 heqm
              split at hok
              · simp at hok
              · split at hok
                · split at hok
                  · simp at hok
                  · rw [Prod.mk.injEq] at hok
                    obtain ⟨hgid, hst2⟩ := hok
                    cases hgid
                    refine ⟨_, by rw [← hst2]; exact setGame_games_self _ _ _, ?_⟩
                    have hb : blockHash = hsh := by
                      rw [heqh] at hh
                      exact Option.some.inj hh
                    have hs16 : hbytes16 = hsh.take 16 := by
                      unfold asMaxLen at heqm
                      split at heqm
                      · unfold sliceB at heqs
                        split at heqs
                        · cases Option.some.inj heqm
                          cases Option.some.inj heqs
                          simp [hb]
                        · cases heqs
                      · cases heqm
                    rw [hs16, Nat.add_comm]
                · simp at hok

/-- Witness for C8: creating a game over `[1, 100]` at height 1 with the
all-zero previous header hash stores
`secret = 1 + ((buff-to-uint-le 0...0) xor 1) mod 100`. -/
theorem secret_derivation_witness :
    createGame ctxA "alice" 1 100 50 (initState balA) =
      (.ok 0, (createGame ctxA "alice" 1 100 50 (initState balA)).2) ∧
    ctxA.headerHash (ctxA.blockHeight - 1) = some (List.replicate 32 0) ∧
    ∃ g, ((createGame ctxA "alice" 1 100 50 (initState balA)).2).games 0 = some g ∧
      g.secretNumber =
        1 + Nat.xor (buffToUintLe ((List.replicate 32 0).take 16))
              ctxA.blockHeight % (100 - 1 + 1) :=
  ⟨rfl, rfl,
    secret_derivation ctxA "alice" 1 100 50 (initState balA)
      (createGame ctxA "alice" 1 100 50 (initState balA)).2 0
      (List.replicate 32 0) rfl rfl⟩

theorem guessInner_ok_shape (ctx : ChainCtx) (c : Principal) (gid n : Nat)
    (s : ChainState) (v : Bool) (s' : ChainState)
    (h : guessInner ctx c gid n s = (.ok v, s')) :
    s'.totalGames = s.totalGames ∧
    ∀ k g2, s'.games k = some g2 →
      s.games k = some g2 ∨
      ∃ g, s.games gid = some g ∧ k = gid ∧
        g2.minNumber = g.minNumber ∧ g2.secretNumber = g.secretNumber ∧
        g2.maxNumber = g.maxNumber := by
  unfold guessInner at h
  split at h
  · simp at h
  · rename_i game heqg
    dsimp only at h
    split at h
    · split at h
      · split at h
        · simp at h
        · rename_i s1 heqf
          have hs1 : s1.games = s.games ∧ s1.totalGames = s.totalGames := by
            split at heqf
            · exact ⟨stxTransfer_ok_games heqf, stxTransfer_ok_totalGames heqf⟩
            · cases heqf; exact ⟨rfl, rfl⟩
          unfold recordAndSettle at h
          split at h
          · simp at h
          · split at h
            · simp at h
            · split at h
              · split at h
                · simp at h
                · split at h
                  · dsimp only at h
                    split at h
                    · simp at h
                    · simp at h
                  · dsimp only at h
                    split at h
                    · simp at h
                    · rename_i s4 heqp
                      rw [Prod.mk.injEq] at h
                      obtain ⟨hv, hs'⟩ := h
                      have hg4 : s4.games = s.games := by
                        rw [stxTransfer_ok_games heqp, setGameGuesses_games,
                          setPlayerGuesses_games]
                        exact hs1.1
                      have ht4 : s4.totalGames = s.totalGames := by
                        rw [stxTransfer_ok_totalGames heqp,
                          setGameGuesses_totalGames, setPlayerGuesses_totalGames]
                        exact hs1.2
                      constructor
                      · rw [← hs']
                        exact ht4
                      · intro k g2 hk
                        rw [← hs'] at hk
                        simp only [ChainState.setGame] at hk
                        by_cases hkg : k = gid
                        · rw [if_pos hkg] at hk
                          cases Option.some.inj hk
                          exact Or.inr ⟨game, heqg, hkg, rfl, rfl, rfl⟩
                        · rw [if_neg hkg] at hk
                          rw [hg4] at hk
                          exact Or.inl hk
              · split at h
                · simp at h
                · split at h
                  · simp at h
                  · rw [Prod.mk.injEq] at h
                    obtain ⟨hv, hs'⟩ := h
                    constructor
                    · rw [← hs']
                      simp only [ChainState.setGame, setGameGuesses_totalGames,
                        setPlayerGuesses_totalGames]
                      exact hs1.2
                    · intro k g2 hk
                      rw [← hs'] at hk
                      simp only [ChainState.setGame] at hk
                      by_cases hkg : k = gid
                      · rw [if_pos hkg] at hk
                        cases Option.some.inj hk
                        exact Or.inr ⟨game, heqg, hkg, rfl, rfl, rfl⟩
                      · rw [if_neg hkg] at hk
                        rw [setGameGuesses_games, setPlayerGuesses_games,
                          hs1.1] at hk
                        exact Or.inl hk
      · simp at h
    · simp at h

theorem guess_totalGames (ctx : ChainCtx) (c : Principal) (gid n : Nat)
    (s : ChainState) : ((guess ctx c gid n s).2).totalGames = s.totalGames := by
  unfold guess
  split
  · rename_i v s' heq
    exact (guessInner_ok_shape ctx c gid n s v s' heq).1
  · rfl

theorem guess_stateInv (ctx : ChainCtx) (c : Principal) (gid n : Nat)
    (s : ChainState) (hs : StateInv s) : StateInv (guess ctx c gid n s).2 := by
  unfold guess
  split
  · rename_i v s' heq
    intro k g2 hk
    rcases (guessInner_ok_shape ctx c gid n s v s' heq).2 k g2 hk with
      hold | ⟨g, hgg, _, hmin, hsec, hmax⟩
    · exact hs k g2 hold
    · have := hs gid g hgg
      unfold GameInv at this ⊢
      rw [hmin, hsec, hmax]
      exact this
  · exact hs

theorem createGame_inv_step (ctx : ChainCtx) (c : Principal)
    (mn mx fee : Nat) (s : ChainState) :
    ∀ k g, ((createGame ctx c mn mx fee s).2).games k = some g →
      s.games k = some g ∨ GameInv g := by
  unfold createGame
  dsimp only
  split
  · exact fun k g h => Or.inl h
  · split
    · exact fun k g h => Or.inl h
    · split
      · exact fun k g h => Or.inl h
      · split
        · exact fun k g h => Or.inl h
        · split
          · exact fun k g h => Or.inl h
          · split
            · exact fun k g h => Or.inl h
            · rename_i hb16 heqm
              split
              · exact fun k g h => Or.inl h
              · split
                · rename_i hmn
                  split
                  · exact fun k g h => Or.inl h
                  · intro k g hk
                    simp only [ChainState.setGame] at hk
                    by_cases hkg : k = s.totalGames
                    · rw [if_pos hkg] at hk
                      cases Option.some.inj hk
                      right
                      unfold GameInv
                      dsimp only
                      have hmod := @Nat.mod_lt
                        (Nat.xor (buffToUintLe hb16) ctx.blockHeight)
                        (mx - mn + 1) (by omega)
                      revert hmod
                      generalize Nat.xor (buffToUintLe hb16) ctx.blockHeight %
                        (mx - mn + 1) = t
                      intro hmod
                      omega
                    · rw [if_neg hkg] at hk
                      exact Or.inl hk
                · exact fun k g h => Or.inl h

theorem runOps_stateInv (ops : List Op) (s : ChainState) (hs : StateInv s) :
    StateInv (runOps ops s) := by
  induction ops generalizing s with
  | nil => exact hs
  | cons op rest ih =>
    refine ih _ ?_
    cases op with
    | create ctx c mn mx fee =>
      intro k g hk
      rcases createGame_inv_step ctx c mn mx fee s k g hk with hold | hnew
      · exact hs k g hold
      · exact hnew
    | play ctx c gid n =>
      exact guess_stateInv ctx c gid n s hs

/-- C6: starting from the genesis state, after any serial sequence of
`create-game` and `guess` transactions every stored game record satisfies
`min-number ≤ secret-number ≤ max-number`.  Creation can only store a secret
`min + (seed mod (max - min + 1))` after `min ≤ max` was asserted, and
`guess` only rewrites pool, count, winner and status. -/
theorem stored_secret_in_range (bal : Principal → Nat) (ops : List Op)
    (gid : Nat) (g : Game)
    (h : (runOps ops (initState bal)).games gid = some g) :
    g.minNumber ≤ g.secretNumber ∧ g.secretNumber ≤ g.maxNumber :=
  runOps_stateInv ops (initState bal)
    (fun _ _ hg => by simp [initState] at hg) gid g h

/-- Witness for C6: one creation over `[5, 5]` stores the record `gNew`,
whose secret 5 lies inside the range. -/
theorem stored_secret_in_range_witness :
    (runOps [Op.create ctxA "alice" 5 5 0] (initState balA)).games 0 =
      some gNew ∧
    (gNew.minNumber ≤ gNew.secretNumber ∧
     gNew.secretNumber ≤ gNew.maxNumber) :=
  ⟨by decide,
    stored_secret_in_range balA [Op.create ctxA "alice" 5 5 0] 0 gNew
      (by decide)⟩

theorem createGame_shape (ctx : ChainCtx) (c : Principal) (mn mx fee : Nat)
    (s : ChainState) :
    (createGame ctx c mn mx fee s =
        (.ok s.totalGames, (createGame ctx c mn mx fee s).2) ∧
      ((createGame ctx c mn mx fee s).2).totalGames = s.totalGames + 1) ∨
    ∃ e, createGame ctx c mn mx fee s = (.err e, s) := by
  unfold createGame
  dsimp only
  split
  · exact Or.inr ⟨_, rfl⟩
  · split
    · exact Or.inr ⟨_, rfl⟩
    · split
      · exact Or.inr ⟨_, rfl⟩
      · split
        · exact Or.inr ⟨_, rfl⟩
        · split
          · exact Or.inr ⟨_, rfl⟩
          · split
            · exact Or.inr ⟨_, rfl⟩
            · split
              · exact Or.inr ⟨_, rfl⟩
              · split
                · split
                  · exact Or.inr ⟨_, rfl⟩
                  · exact Or.inl ⟨rfl, rfl⟩
                · exact Or.inr ⟨_, rfl⟩

theorem runTrace_range (ops : List Op) (s : ChainState) :
    (runTrace ops s).1 =
      List.range' s.totalGames (runTrace ops s).1.length ∧
    ((runTrace ops s).2).totalGames =
      s.totalGames + (runTrace ops s).1.length := by
  induction ops generalizing s with
  | nil => simp [runTrace]
  | cons op rest ih =>
    cases op with
    | play ctx c gid n =>
      have hg := guess_totalGames ctx c gid n s
      have ihx := ih ((guess ctx c gid n s).2)
      rw [hg] at ihx
      simp only [runTrace]
      exact ihx
    | create ctx c mn mx fee =>
      rcases createGame_shape ctx c mn mx fee s with ⟨hok, htot⟩ | ⟨e, herr⟩
      · have ihx := ih ((createGame ctx c mn mx fee s).2)
        rw [htot] at ihx
        simp only [runTrace]
        rw [hok]
        dsimp only
        refine ⟨?_, ?_⟩
        · rw [List.length_cons, List.range'_succ]
          exact congrArg (List.cons s.totalGames) ihx.1
        · rw [List.length_cons, ihx.2]
          omega
      · have ihx := ih s
        simp only [runTrace]
        rw [herr]
        dsimp only
        exact ihx

/-- C7: from the genesis state, the game ids handed out by the successful
`create-game` calls of any transaction sequence are exactly `0, 1, 2, ...`
in order — strictly increasing from 0 with no id ever reused — and
`get-total-games` returns precisely the number of successful creations. -/
theorem game_ids_sequential (bal : Principal → Nat) (ops : List Op) :
    (runTrace ops (initState bal)).1 =
      List.range (runTrace ops (initState bal)).1.length ∧
    getTotalGames (runTrace ops (initState bal)).2 =
      .ok (runTrace ops (initState bal)).1.length := by
  have h := runTrace_range ops (initState bal)
  refine ⟨?_, ?_⟩
  · rw [List.range_eq_range']
    exact h.1
  · unfold getTotalGames
    rw [h.2]
    simp [initState]
